import Mathlib

/-!
Shallow embedding of the GuessTheNumber game engine
(src/libguess/src/lib.rs) and verification of its specification.

All integers in the source are Rust `u32`; values stay far below `2^32`
(the only arithmetic is a decrement guarded by a zero test and a range
draw), so they are modelled as `Nat`.  The `rand::StdRng` capability is
external to the repository: the constructor receives it only to draw the
secret, and `play` never reads it, so the draw is modelled as a function
parameter `draw : Nat → Nat → Nat` (inclusive-range draw) and the stored
generator handle is omitted from the state.
-/

namespace Libguess

/-- `GuessResult` from src/libguess/src/lib.rs: the outcome of one guess. -/
inductive GuessResult where
  | Correct
  | TooHigh
  | TooLow
  | NoMoreLives
deriving DecidableEq, Repr

/-- `Game` from src/libguess/src/lib.rs: configuration and mutable play
state.  The `rng: StdRng` field is dropped (see the file comment). -/
structure Game where
  min_num : Nat
  max_num : Nat
  lives : Nat
  secret_number : Nat
deriving DecidableEq, Repr

/-- `Game::MIN_NUM`. -/
def Game.MIN_NUM : Nat := 1

/-- `Game::MAX_NUM`. -/
def Game.MAX_NUM : Nat := 20

/-- `Game::LIVES`. -/
def Game.LIVES : Nat := 10

/-- `compare` from src/libguess/src/lib.rs: three-way comparison of the
guess against the secret, via `guess.cmp(&secret)`. -/
def compare (guess secret : Nat) : GuessResult :=
  match Ord.compare guess secret with
  | Ordering.eq => GuessResult.Correct
  | Ordering.lt => GuessResult.TooLow
  | Ordering.gt => GuessResult.TooHigh

/-- `Game::new` from src/libguess/src/lib.rs: each `Option` argument
falls back to the corresponding constant, and the secret is drawn from
the inclusive range `[min, max]` by the injected random capability. -/
def Game.new (min_num max_num lives : Option Nat)
    (draw : Nat → Nat → Nat) : Game :=
  let secret_number := draw (min_num.getD Game.MIN_NUM) (max_num.getD Game.MAX_NUM)
  { min_num := min_num.getD Game.MIN_NUM
    max_num := max_num.getD Game.MAX_NUM
    lives := lives.getD Game.LIVES
    secret_number := secret_number }

/-- `GameTrait::play` for `Game` (src/libguess/src/lib.rs): returns the
outcome and the updated state.  Early return `NoMoreLives` when
`lives == 0`; otherwise compare and decrement `lives` on any outcome
other than `Correct`. -/
def Game.play (g : Game) (guess : Nat) : GuessResult × Game :=
  if g.lives = 0 then
    (GuessResult.NoMoreLives, g)
  else
    let result := compare guess g.secret_number
    if result ≠ GuessResult.Correct then
      (result, { g with lives := g.lives - 1 })
    else
      (result, g)

/-- Iterated `play`: the state after evaluating a list of guesses in
order (the outcomes are discarded). -/
def Game.playSeq (g : Game) (gs : List Nat) : Game :=
  match gs with
  | [] => g
  | x :: xs => Game.playSeq (Game.play g x).2 xs

/-! ### Helper lemmas -/

theorem compare_self (s : Nat) : compare s s = GuessResult.Correct := by
  unfold compare
  rw [Nat.compare_eq_eq.mpr rfl]

theorem compare_of_lt {g s : Nat} (h : g < s) : compare g s = GuessResult.TooLow := by
  unfold compare
  rw [Nat.compare_eq_lt.mpr h]

theorem compare_of_gt {g s : Nat} (h : s < g) : compare g s = GuessResult.TooHigh := by
  unfold compare
  rw [Nat.compare_eq_gt.mpr h]

theorem compare_ne_correct {g s : Nat} (h : g ≠ s) :
    compare g s ≠ GuessResult.Correct := by
  rcases Nat.lt_trichotomy g s with hlt | heq | hgt
  · rw [compare_of_lt hlt]; intro hc; cases hc
  · exact absurd heq h
  · rw [compare_of_gt hgt]; intro hc; cases hc

theorem play_of_lives_zero (g : Game) (x : Nat) (h : g.lives = 0) :
    g.play x = (GuessResult.NoMoreLives, g) := by
  unfold Game.play
  simp [h]

theorem play_of_correct (g : Game) (x : Nat) (h : g.lives ≠ 0)
    (he : x = g.secret_number) : g.play x = (GuessResult.Correct, g) := by
  unfold Game.play
  simp only [h, if_neg h, he, compare_self, ne_eq, not_true_eq_false, if_false]

theorem play_of_wrong (g : Game) (x : Nat) (h : g.lives ≠ 0)
    (hne : x ≠ g.secret_number) :
    g.play x = (compare x g.secret_number, { g with lives := g.lives - 1 }) := by
  unfold Game.play
  simp only [if_neg h, ne_eq, compare_ne_correct hne, not_false_eq_true, if_true]

theorem play_secret (g : Game) (x : Nat) :
    ((g.play x).2).secret_number = g.secret_number := by
  unfold Game.play
  split
  · rfl
  · dsimp only
    split <;> rfl

theorem play_min (g : Game) (x : Nat) : ((g.play x).2).min_num = g.min_num := by
  unfold Game.play
  split
  · rfl
  · dsimp only
    split <;> rfl

theorem play_max (g : Game) (x : Nat) : ((g.play x).2).max_num = g.max_num := by
  unfold Game.play
  split
  · rfl
  · dsimp only
    split <;> rfl

theorem play_lives_cases (g : Game) (x : Nat) :
    ((g.play x).2).lives = g.lives ∨
      (((g.play x).2).lives + 1 = g.lives ∧ 0 < g.lives) := by
  unfold Game.play
  split
  · left; rfl
  · rename_i h
    dsimp only
    split
    · right
      constructor
      · simp only []
        omega
      · omega
    · left; rfl

theorem playSeq_lives_of_wrong (gs : List Nat) (g : Game)
    (hw : ∀ x ∈ gs, x ≠ g.secret_number) (hlen : gs.length ≤ g.lives) :
    (g.playSeq gs).lives = g.lives - gs.length := by
  induction gs generalizing g with
  | nil => simp [Game.playSeq]
  | cons a as ih =>
    have hx : a ≠ g.secret_number := hw a (List.mem_cons_self a as)
    have hpos : g.lives ≠ 0 := by
      simp only [List.length_cons] at hlen
      omega
    have hstep : g.play a = (compare a g.secret_number,
        { g with lives := g.lives - 1 }) := play_of_wrong g a hpos hx
    unfold Game.playSeq
    rw [hstep]
    have hres := ih { g with lives := g.lives - 1 }
      (by intro x hxm; exact hw x (List.mem_cons_of_mem a hxm))
      (by simp only [List.length_cons] at hlen; simpa using Nat.le_sub_one_of_lt hlen)
    rw [hres]
    simp only [List.length_cons]
    omega

theorem playSeq_of_lives_zero (gs : List Nat) (g : Game) (h : g.lives = 0) :
    g.playSeq gs = g := by
  induction gs with
  | nil => rfl
  | cons a as ih =>
    unfold Game.playSeq
    rw [play_of_lives_zero g a h]
    exact ih

/-! ### Claim theorems -/

/-- C1: `compare g s` returns `Correct` exactly when `g = s`, `TooLow`
exactly when `g < s`, `TooHigh` exactly when `g > s`; the three cases are
exhaustive (`NoMoreLives` never occurs) and mutually exclusive. -/
theorem compare_trichotomy (g s : Nat) :
    (compare g s = GuessResult.Correct ↔ g = s) ∧
    (compare g s = GuessResult.TooLow ↔ g < s) ∧
    (compare g s = GuessResult.TooHigh ↔ s < g) ∧
    compare g s ≠ GuessResult.NoMoreLives := by
  rcases Nat.lt_trichotomy g s with h | h | h
  · rw [compare_of_lt h]
    simp
    omega
  · subst h
    rw [compare_self]
    simp
  · rw [compare_of_gt h]
    simp
    omega

/-- C1 witness: `compare_trichotomy` evaluated at `3, 5`. -/
theorem compare_trichotomy_witness :
    (compare 3 5 = GuessResult.Correct ↔ 3 = 5) ∧
    (compare 3 5 = GuessResult.TooLow ↔ 3 < 5) ∧
    (compare 3 5 = GuessResult.TooHigh ↔ 5 < 3) ∧
    compare 3 5 ≠ GuessResult.NoMoreLives :=
  compare_trichotomy 3 5

/-- C2: in the `Active` state any `play` whose outcome is not `Correct`
decrements `lives` by exactly one, and after `n` consecutive incorrect
guesses on a game constructed with `n > 0` lives, `lives = 0` and the
next `play`, for every guess, returns `NoMoreLives`. -/
theorem play_countdown_exhaustion (g : Game) (gs : List Nat)
    (hn : 0 < g.lives) (hlen : gs.length = g.lives)
    (hw : ∀ x ∈ gs, x ≠ g.secret_number) :
    (∀ h : Game, ∀ x : Nat, 0 < h.lives → (h.play x).1 ≠ GuessResult.Correct →
        ((h.play x).2).lives + 1 = h.lives) ∧
    (g.playSeq gs).lives = 0 ∧
    (∀ x : Nat, ((g.playSeq gs).play x).1 = GuessResult.NoMoreLives) := by
  have hexh : (g.playSeq gs).lives = 0 := by
    rw [playSeq_lives_of_wrong gs g hw (le_of_eq hlen)]
    omega
  refine ⟨?_, hexh, ?_⟩
  · intro h x hpos hnc
    by_cases he : x = h.secret_number
    · rw [play_of_correct h x (by omega) he] at hnc
      exact absurd rfl hnc
    · rw [play_of_wrong h x (by omega) he]
      dsimp
      omega
  · intro x
    rw [play_of_lives_zero _ x hexh]

/-- C2 witness: `play_countdown_exhaustion` on the game
`⟨1, 10, 2, 3⟩` (two lives, secret `3`) after the incorrect guesses
`[1, 5]`. -/
theorem play_countdown_exhaustion_witness :
    ((Game.mk 1 10 2 3).playSeq [1, 5]).lives = 0 ∧
    (((Game.mk 1 10 2 3).playSeq [1, 5]).play 3).1 = GuessResult.NoMoreLives :=
  ⟨(play_countdown_exhaustion (Game.mk 1 10 2 3) [1, 5] (by decide) (by decide)
      (by decide)).2.1,
   (play_countdown_exhaustion (Game.mk 1 10 2 3) [1, 5] (by decide) (by decide)
      (by decide)).2.2 3⟩

/-- C3: in the `Exhausted` state (`lives = 0`), `play` returns
`NoMoreLives` and leaves the whole state unchanged, for every guess
(including `guess = secret`) and for any number of further calls. -/
theorem play_exhausted_idempotent (g : Game) (x : Nat) (gs : List Nat)
    (h : g.lives = 0) :
    g.play x = (GuessResult.NoMoreLives, g) ∧ g.playSeq gs = g :=
  ⟨play_of_lives_zero g x h, playSeq_of_lives_zero gs g h⟩

/-- C3 witness: `play_exhausted_idempotent` on the exhausted game
`⟨1, 20, 0, 7⟩`, guessing the secret `7` and then the run `[7, 2, 19]`. -/
theorem play_exhausted_idempotent_witness :
    (Game.mk 1 20 0 7).play 7 = (GuessResult.NoMoreLives, Game.mk 1 20 0 7) ∧
    (Game.mk 1 20 0 7).playSeq [7, 2, 19] = Game.mk 1 20 0 7 :=
  play_exhausted_idempotent (Game.mk 1 20 0 7) 7 [7, 2, 19] (by decide)

/-- C4: with `lives > 0` and `guess = secret`, `play` returns `Correct`
and leaves the state (in particular `lives`) unchanged; in general no
`play` call whose outcome is `Correct` decrements `lives`. -/
theorem play_correct_no_decrement (g : Game) (x : Nat)
    (hpos : 0 < g.lives) (he : x = g.secret_number) :
    g.play x = (GuessResult.Correct, g) ∧
    ∀ h : Game, ∀ y : Nat, (h.play y).1 = GuessResult.Correct →
      ((h.play y).2).lives = h.lives := by
  constructor
  · exact play_of_correct g x (by omega) he
  · intro h y hc
    by_cases hz : h.lives = 0
    · rw [play_of_lives_zero h y hz] at hc
      cases hc
    · by_cases hy : y = h.secret_number
      · rw [play_of_correct h y hz hy]
      · rw [play_of_wrong h y hz hy] at hc
        exact absurd hc (compare_ne_correct hy)

/-- C4 witness: `play_correct_no_decrement` on `⟨1, 20, 5, 9⟩` with the
correct guess `9`. -/
theorem play_correct_no_decrement_witness :
    (Game.mk 1 20 5 9).play 9 = (GuessResult.Correct, Game.mk 1 20 5 9) ∧
    ((Game.mk 1 20 5 9).play 9).2.lives = (Game.mk 1 20 5 9).lives :=
  ⟨(play_correct_no_decrement (Game.mk 1 20 5 9) 9 (by decide) (by decide)).1,
   (play_correct_no_decrement (Game.mk 1 20 5 9) 9 (by decide) (by decide)).2
     (Game.mk 1 20 5 9) 9 (by decide)⟩

/-- C5: `play` is total and deterministic: for every state and guess it
yields exactly one result pair, and the outcome is one of the four
constructors `Correct`, `TooLow`, `TooHigh`, `NoMoreLives`. -/
theorem play_total_deterministic (g : Game) (x : Nat) :
    ((g.play x).1 = GuessResult.Correct ∨ (g.play x).1 = GuessResult.TooLow ∨
     (g.play x).1 = GuessResult.TooHigh ∨ (g.play x).1 = GuessResult.NoMoreLives) ∧
    ∃! p : GuessResult × Game, g.play x = p := by
  constructor
  · cases hr : (g.play x).1 <;> simp
  · exact ⟨g.play x, rfl, fun p hp => hp.symm⟩

/-- C5 witness: `play_total_deterministic` evaluated at the game
`⟨1, 20, 4, 12⟩` with guess `12`. -/
theorem play_total_deterministic_witness :
    (((Game.mk 1 20 4 12).play 12).1 = GuessResult.Correct ∨
     ((Game.mk 1 20 4 12).play 12).1 = GuessResult.TooLow ∨
     ((Game.mk 1 20 4 12).play 12).1 = GuessResult.TooHigh ∨
     ((Game.mk 1 20 4 12).play 12).1 = GuessResult.NoMoreLives) ∧
    ∃! p : GuessResult × Game, (Game.mk 1 20 4 12).play 12 = p :=
  play_total_deterministic (Game.mk 1 20 4 12) 12

/-- C6: construction with no overrides yields minimum `1`, maximum `20`,
lives `10`; with explicit `(1, 10, 5)` it yields `1`, `10`, `5`; in
general each supplied option independently replaces its default and is
returned unchanged by the accessors. -/
theorem new_defaults_and_overrides (a b c : Option Nat) (draw : Nat → Nat → Nat) :
    (Game.new none none none draw).min_num = 1 ∧
    (Game.new none none none draw).max_num = 20 ∧
    (Game.new none none none draw).lives = 10 ∧
    (Game.new (some 1) (some 10) (some 5) draw).min_num = 1 ∧
    (Game.new (some 1) (some 10) (some 5) draw).max_num = 10 ∧
    (Game.new (some 1) (some 10) (some 5) draw).lives = 5 ∧
    (Game.new a b c draw).min_num = a.getD Game.MIN_NUM ∧
    (Game.new a b c draw).max_num = b.getD Game.MAX_NUM ∧
    (Game.new a b c draw).lives = c.getD Game.LIVES :=
  ⟨rfl, rfl, rfl, rfl, rfl, rfl, rfl, rfl, rfl⟩

/-- C6 witness: `new_defaults_and_overrides` at overrides
`(some 2, none, some 7)` and the draw returning the lower bound. -/
theorem new_defaults_and_overrides_witness :
    (Game.new none none none (fun lo _ => lo)).min_num = 1 ∧
    (Game.new none none none (fun lo _ => lo)).max_num = 20 ∧
    (Game.new none none none (fun lo _ => lo)).lives = 10 ∧
    (Game.new (some 1) (some 10) (some 5) (fun lo _ => lo)).min_num = 1 ∧
    (Game.new (some 1) (some 10) (some 5) (fun lo _ => lo)).max_num = 10 ∧
    (Game.new (some 1) (some 10) (some 5) (fun lo _ => lo)).lives = 5 ∧
    (Game.new (some 2) none (some 7) (fun lo _ => lo)).min_num =
      (some 2).getD Game.MIN_NUM ∧
    (Game.new (some 2) none (some 7) (fun lo _ => lo)).max_num =
      (none : Option Nat).getD Game.MAX_NUM ∧
    (Game.new (some 2) none (some 7) (fun lo _ => lo)).lives =
      (some 7).getD Game.LIVES :=
  new_defaults_and_overrides (some 2) none (some 7) (fun lo _ => lo)

/-- C7: when the injected draw honours the inclusive-range contract and
`minimum ≤ maximum`, the constructed secret satisfies
`minimum ≤ secret ≤ maximum`; and `play` never changes `secret_number`,
`min_num` or `max_num`. -/
theorem secret_in_range_and_config_immutable (a b c : Option Nat)
    (draw : Nat → Nat → Nat)
    (hdraw : ∀ lo hi : Nat, lo ≤ hi → lo ≤ draw lo hi ∧ draw lo hi ≤ hi)
    (hord : a.getD Game.MIN_NUM ≤ b.getD Game.MAX_NUM) :
    ((Game.new a b c draw).min_num ≤ (Game.new a b c draw).secret_number ∧
      (Game.new a b c draw).secret_number ≤ (Game.new a b c draw).max_num) ∧
    ∀ g : Game, ∀ x : Nat,
      ((g.play x).2).secret_number = g.secret_number ∧
      ((g.play x).2).min_num = g.min_num ∧
      ((g.play x).2).max_num = g.max_num := by
  constructor
  · exact hdraw (a.getD Game.MIN_NUM) (b.getD Game.MAX_NUM) hord
  · intro g x
    exact ⟨play_secret g x, play_min g x, play_max g x⟩

/-- C7 witness: `secret_in_range_and_config_immutable` at bounds
`(2, 9)`, draw returning the lower bound, and one `play` step on the
game `⟨2, 9, 4, 6⟩`. -/
theorem secret_in_range_and_config_immutable_witness :
    ((Game.new (some 2) (some 9) (some 4) (fun lo _ => lo)).min_num ≤
        (Game.new (some 2) (some 9) (some 4) (fun lo _ => lo)).secret_number ∧
      (Game.new (some 2) (some 9) (some 4) (fun lo _ => lo)).secret_number ≤
        (Game.new (some 2) (some 9) (some 4) (fun lo _ => lo)).max_num) ∧
    (((Game.mk 2 9 4 6).play 5).2.secret_number = (Game.mk 2 9 4 6).secret_number ∧
      ((Game.mk 2 9 4 6).play 5).2.min_num = (Game.mk 2 9 4 6).min_num ∧
      ((Game.mk 2 9 4 6).play 5).2.max_num = (Game.mk 2 9 4 6).max_num) :=
  ⟨(secret_in_range_and_config_immutable (some 2) (some 9) (some 4)
      (fun lo _ => lo) (fun lo _ h => ⟨Nat.le_refl lo, h⟩) (by decide)).1,
   (secret_in_range_and_config_immutable (some 2) (some 9) (some 4)
      (fun lo _ => lo) (fun lo _ h => ⟨Nat.le_refl lo, h⟩) (by decide)).2
     (Game.mk 2 9 4 6) 5⟩

/-- C8: the constructor performs no validation of `minimum ≤ maximum`:
for every pair of supplied bounds, including a lower bound above the
upper bound, `Game.new` succeeds and returns exactly the record of the
supplied-or-default fields with the drawn secret. -/
theorem new_total_no_validation (a b c : Option Nat) (draw : Nat → Nat → Nat) :
    Game.new a b c draw =
      Game.mk (a.getD Game.MIN_NUM) (b.getD Game.MAX_NUM) (c.getD Game.LIVES)
        (draw (a.getD Game.MIN_NUM) (b.getD Game.MAX_NUM)) :=
  rfl

/-- C8 witness: `new_total_no_validation` with reversed bounds
`minimum = 10 > 1 = maximum`: construction still succeeds. -/
theorem new_total_no_validation_witness :
    Game.new (some 10) (some 1) (some 3) (fun lo _ => lo) =
      Game.mk 10 1 3 10 :=
  new_total_no_validation (some 10) (some 1) (some 3) (fun lo _ => lo)

/-- C9: `lives` never underflows: after any `play` it is still
non-negative, and a decrement (by exactly one) happens only when
`lives > 0` before the call. -/
theorem play_lives_nonneg_no_underflow (g : Game) (x : Nat) :
    (0 : Int) ≤ (((g.play x).2).lives : Int) ∧
    (((g.play x).2).lives = g.lives ∨
      (((g.play x).2).lives + 1 = g.lives ∧ 0 < g.lives)) :=
  ⟨Int.natCast_nonneg _, play_lives_cases g x⟩

/-- C9 witness: `play_lives_nonneg_no_underflow` at the game
`⟨1, 20, 1, 8⟩` with the incorrect guess `2` (last life spent). -/
theorem play_lives_nonneg_no_underflow_witness :
    (0 : Int) ≤ ((((Game.mk 1 20 1 8).play 2).2).lives : Int) ∧
    ((((Game.mk 1 20 1 8).play 2).2).lives = (Game.mk 1 20 1 8).lives ∨
      ((((Game.mk 1 20 1 8).play 2).2).lives + 1 = (Game.mk 1 20 1 8).lives ∧
        0 < (Game.mk 1 20 1 8).lives)) :=
  play_lives_nonneg_no_underflow (Game.mk 1 20 1 8) 2

/-- C10: the outcome and the resulting lives of `play` do not depend on
the range bounds: two games equal in `lives` and `secret_number` but with
arbitrary `min_num`/`max_num` produce the same outcome and the same
resulting lives for the same guess. -/
theorem play_ignores_bounds (g1 g2 : Game) (x : Nat)
    (hl : g1.lives = g2.lives) (hs : g1.secret_number = g2.secret_number) :
    (g1.play x).1 = (g2.play x).1 ∧
    ((g1.play x).2).lives = ((g2.play x).2).lives := by
  by_cases hz : g1.lives = 0
  · have hz2 : g2.lives = 0 := by omega
    rw [play_of_lives_zero g1 x hz, play_of_lives_zero g2 x hz2]
    exact ⟨rfl, hl⟩
  · have hz2 : g2.lives ≠ 0 := by omega
    by_cases he : x = g1.secret_number
    · rw [play_of_correct g1 x hz he, play_of_correct g2 x hz2 (hs ▸ he)]
      exact ⟨rfl, hl⟩
    · rw [play_of_wrong g1 x hz he, play_of_wrong g2 x hz2 (hs ▸ he)]
      refine ⟨by rw [hs], ?_⟩
      show g1.lives - 1 = g2.lives - 1
      omega

/-- C10 witness: `play_ignores_bounds` on `⟨1, 20, 3, 7⟩` and
`⟨5, 100, 3, 7⟩` (same lives and secret, different bounds) with
guess `4`. -/
theorem play_ignores_bounds_witness :
    ((Game.mk 1 20 3 7).play 4).1 = ((Game.mk 5 100 3 7).play 4).1 ∧
    (((Game.mk 1 20 3 7).play 4).2).lives = (((Game.mk 5 100 3 7).play 4).2).lives :=
  play_ignores_bounds (Game.mk 1 20 3 7) (Game.mk 5 100 3 7) 4 rfl rfl

end Libguess
